import Mathlib

/-!
Verification of the feature-engineering and filtering pipeline of the
global-disaster-data-visualization dashboard (`src/app.py`).

Modelling conventions (a shallow embedding of the pandas code):
- A dataframe is a `List` of row structures; a nullable column cell is an
  `Option` value, with `none` playing the role of pandas `NaN`/`NaT`.
- Numeric cells are idealized as exact rationals `ℚ` (the Python code uses
  floating point; none of the verified properties depend on rounding).
- `np.log1p` is transcendental, so the pipeline is parametrized by an
  arbitrary function `log1p : ℚ → ℚ`; theorems that need facts about the
  real `log1p` assume exactly `log1p 0 = 0` and monotonicity, which the
  real function satisfies.  NaN propagation (`np.log1p NaN = NaN`,
  `NaN + x = NaN`, `NaN / m = NaN`) is modelled by `Option` propagation
  and holds for every choice of the parameter.
- pandas `Series.max` skips NaN (`skipna=True`) and returns NaN on an
  all-NaN/empty series: modelled by `maximum?` over the non-`none` cells.
- Scalar comparisons with NaN are false in Python (`NaN > 0`,
  `NaN >= thr`): modelled by matching on the `Option` and returning
  `false`/the else-branch for `none`.
-/

/-- A raw input row of `cleaned_data_final.csv`, restricted to the columns
the pipeline and filters read.  `month`, `casualties` and
`economic_loss_usd` are nullable. -/
structure RawRow where
  year : Int
  month : Option Int
  country : String
  disaster_type : String
  casualties : Option ℚ
  economic_loss_usd : Option ℚ
deriving Repr, DecidableEq

/-- A calendar date `year-month-day` as produced by `pd.to_datetime`. -/
structure SimpleDate where
  year : Int
  month : Int
  day : Int
deriving Repr, DecidableEq

/-- Cell-level `df['month'].fillna(1)`: replace a null month by 1. -/
def monthFillna (m : Option Int) : Int :=
  m.getD 1

/-- Cell-level `.replace(0, 1)`: replace the value 0 by 1. -/
def monthReplaceZero (v : Int) : Int :=
  if v = 0 then 1 else v

/-- Line 47 of app.py,
`df['month_clean'] = df['month'].fillna(1).replace(0, 1).astype(int)`, on one cell; `astype(int)` is the identity on
integer-valued cells. -/
def monthClean (m : Option Int) : Int :=
  monthReplaceZero (monthFillna m)

/-- Lines 51-54 of app.py,
`pd.to_datetime(f"{year}-{month:02d}-01", errors='coerce')`, on one row: building the first day of
`(year, month)` succeeds exactly when the month is a calendar month,
otherwise the cell is coerced to NaT (`none`).  (Timestamps out of the
pandas nanosecond range are not modelled; the dataset's years 2018-2024
are all in range.) -/
def toDatetimeCoerce (y m : Int) : Option SimpleDate :=
  if 1 ≤ m ∧ m ≤ 12 then some ⟨y, m, 1⟩ else none

/-- The per-row date after the NaT-fallback of app.py lines 56-58:
cells left NaT by `toDatetimeCoerce` are filled with the first day of
the row's year. -/
def dateWithFallback (y m : Int) : Option SimpleDate :=
  match toDatetimeCoerce y m with
  | some d => some d
  | none => some ⟨y, 1, 1⟩

/-- Lines 62-64 of app.py,
`np.log1p(df['casualties']) + np.log1p(df['economic_loss_usd'])`, on one row: the pre-normalization severity score.
A missing operand makes the whole sum NaN (`none`), exactly as
`np.log1p(NaN) = NaN` and `NaN + x = NaN` do. -/
def rawScore (log1p : ℚ → ℚ) (r : RawRow) : Option ℚ :=
  match r.casualties, r.economic_loss_usd with
  | some c, some l => some (log1p c + log1p l)
  | _, _ => none

/-- Line 67 of app.py, `df['severity_score'].max()`: pandas `Series.max`
skips NaN cells and yields NaN (`none`) when no cell remains. -/
def seriesMax (xs : List (Option ℚ)) : Option ℚ :=
  (xs.filterMap id).max?

/-- App.py lines 67-71: normalize the raw scores to 0-100.  The Python
condition `max_score > 0` is false both for a non-positive maximum and
for a NaN maximum, and in those cases the whole column is assigned the
scalar 0.  When scaling, a NaN raw score stays NaN. -/
def normalizeScores (raws : List (Option ℚ)) : List (Option ℚ) :=
  match seriesMax raws with
  | some m =>
      if 0 < m then raws.map (Option.map (fun r => r / m * 100))
      else raws.map (fun _ => some 0)
  | none => raws.map (fun _ => some 0)

/-- A row of the enriched dataset: the raw columns plus the derived
`month_clean`, `date` and `severity_score` columns of `load_data`. -/
structure EnrichedRow where
  year : Int
  month : Option Int
  country : String
  disaster_type : String
  casualties : Option ℚ
  economic_loss_usd : Option ℚ
  month_clean : Int
  date : Option SimpleDate
  severity_score : Option ℚ
deriving Repr, DecidableEq

/-- The date- and month-derivation part of `load_data` on one row
(app.py lines 47-58), with the severity score passed in from the
column-wide normalization. -/
def enrichRow (r : RawRow) (score : Option ℚ) : EnrichedRow :=
  { year := r.year
    month := r.month
    country := r.country
    disaster_type := r.disaster_type
    casualties := r.casualties
    economic_loss_usd := r.economic_loss_usd
    month_clean := monthClean r.month
    date := dateWithFallback r.year (monthClean r.month)
    severity_score := score }

/-- The feature pipeline of `load_data` (app.py lines 47-71): month
repair, date construction with per-row fallback, and severity-score
computation normalized against the dataset-wide maximum. -/
def enrich (log1p : ℚ → ℚ) (rows : List RawRow) : List EnrichedRow :=
  let scores := normalizeScores (rows.map (rawScore log1p))
  (rows.zip scores).map (fun p => enrichRow p.1 p.2)

/-- The sidebar filter state of app.py lines 90-101: the year-range
slider, the disaster-type multiselect (a possibly empty list), the
country selectbox (possibly the sentinel `"All World"`) and the
severity-threshold slider. -/
structure FilterSpec where
  year_lo : Int
  year_hi : Int
  disaster_types : List String
  country : String
  severity_floor : ℚ
deriving Repr, DecidableEq

/-- The boolean mask of app.py lines 107-111 on one row:
`(year >= lo) & (year <= hi) & (severity_score >= threshold)`.
A NaN severity compares false, so a NaN row is dropped. -/
def baseMask (spec : FilterSpec) (r : EnrichedRow) : Bool :=
  decide (spec.year_lo ≤ r.year) && decide (r.year ≤ spec.year_hi) &&
    (match r.severity_score with
     | some s => decide (spec.severity_floor ≤ s)
     | none => false)

/-- The filtering logic of app.py lines 107-117: the base year/severity
mask, then `if selected_types: ... isin(selected_types)` (skipped when
the multiselect is empty), then `if selected_country != "All World":
... == selected_country` (skipped at the sentinel). -/
def filteredDf (spec : FilterSpec) (df : List EnrichedRow) : List EnrichedRow :=
  let step1 := df.filter (baseMask spec)
  let step2 :=
    if spec.disaster_types.isEmpty then step1
    else step1.filter (fun r => spec.disaster_types.contains r.disaster_type)
  if spec.country = "All World" then step2
  else step2.filter (fun r => r.country == spec.country)

/-- The possible outcomes of `plot_seasonal_radar` (app.py lines
146-156), kept distinct so the error path is not conflated with the
graceful one. -/
inductive RadarResult where
  /-- The early `if data.empty: return None` of line 148: no chart. -/
  | noChart : RadarResult
  /-- The IndexError raised by `monthly.iloc[[0]]` at line 152 when the
  grouped frame has no rows (a non-empty input whose `month` cells are
  all NaN, which pandas drops from the groups): the function crashes
  rather than returning. -/
  | indexError : RadarResult
  /-- A successfully built radar series of (month, count) rows. -/
  | chart : List (Int × Nat) → RadarResult
deriving Repr, DecidableEq

/-- The data preparation of `plot_seasonal_radar` (app.py lines 146-156):
the early `return None` on an empty input (line 148); otherwise
`data.groupby('month').size()` — grouping on the RAW `month` column,
whose NaN cells pandas drops from the groups and whose keys it sorts
ascending — followed by `pd.concat([monthly, monthly.iloc[[0]]])`
(line 152), which appends a copy of the first group row to close the
radar loop, and raises IndexError when the grouped frame is empty. -/
def seasonalRadarData (data : List EnrichedRow) : RadarResult :=
  if data.isEmpty then RadarResult.noChart
  else
    let monthCells := data.filterMap (fun r => r.month)
    let keys := List.insertionSort (· ≤ ·) monthCells.dedup
    let monthly := keys.map (fun m => (m, monthCells.count m))
    if monthly.isEmpty then RadarResult.indexError
    else RadarResult.chart (monthly ++ monthly.take 1)

/-- Line 212 of app.py, `filtered_df['severity_score'].mean()`: pandas
`Series.mean` skips NaN cells and is NaN (`none`) when no cell
remains — in particular on an empty filtered subset. -/
def avgSeverity (data : List EnrichedRow) : Option ℚ :=
  let vals := data.filterMap (fun r => r.severity_score)
  if vals.isEmpty then none else some (vals.sum / vals.length)

/-- What the average-severity metric card shows (app.py line 217). -/
inductive MetricDisplay where
  /-- Python renders `f"{float(nan):.1f}/100"` as the text `"nan/100"`. -/
  | nanText : MetricDisplay
  /-- A number formatted to one decimal place, over 100. -/
  | valueText : ℚ → MetricDisplay
deriving Repr, DecidableEq

/-- Line 217 of app.py,
`col4.metric("Avg Severity Score", f"{avg_severity:.1f}/100")`: the f-string formats whatever float it is given —
there is no guard, so a NaN mean is formatted as the literal text
`"nan"`. -/
def renderAvgSeverity (x : Option ℚ) : MetricDisplay :=
  match x with
  | none => MetricDisplay.nanText
  | some v => MetricDisplay.valueText v

/-- The specification's reading of the Filter Engine (spec §4.2): one
conjunctive predicate — inclusive year range, inclusive severity floor
(on a defined score), type membership with the empty multiselect meaning
"no type filter", and country equality unless the sentinel is selected.
Stated separately from `filteredDf` so that equality of the two is a
theorem about the staged source code, not a definition. -/
def conjunctiveKeep (spec : FilterSpec) (r : EnrichedRow) : Bool :=
  decide (spec.year_lo ≤ r.year) && decide (r.year ≤ spec.year_hi) &&
    (match r.severity_score with
     | some s => decide (spec.severity_floor ≤ s)
     | none => false) &&
    (spec.disaster_types.isEmpty || spec.disaster_types.contains r.disaster_type) &&
    (decide (spec.country = "All World") || r.country == spec.country)

/-- The disaster types present in a dataset, without duplicates (what
"all types selected" means for that dataset). -/
def typesPresent (df : List EnrichedRow) : List String :=
  (df.map (fun r => r.disaster_type)).dedup

-- ### Generic helper lemmas about `List.max?` over `ℚ`

theorem le_foldl_max (l : List ℚ) (a : ℚ) : a ≤ l.foldl max a := by
  induction l generalizing a with
  | nil => simp
  | cons y ys ih => exact le_trans (le_max_left a y) (ih (max a y))

theorem le_foldl_max_of_mem {l : List ℚ} {x : ℚ} (hx : x ∈ l) (a : ℚ) :
    x ≤ l.foldl max a := by
  induction l generalizing a with
  | nil => cases hx
  | cons y ys ih =>
    rcases List.mem_cons.mp hx with h | h
    · subst h
      exact le_trans (le_max_right a x) (le_foldl_max ys (max a x))
    · exact ih h (max a y)

theorem foldl_max_mem (l : List ℚ) (a : ℚ) :
    l.foldl max a = a ∨ l.foldl max a ∈ l := by
  induction l generalizing a with
  | nil => simp
  | cons y ys ih =>
    simp only [List.foldl_cons, List.mem_cons]
    rcases ih (max a y) with h | h
    · rw [h]
      rcases max_choice a y with h' | h' <;> rw [h']
      · exact Or.inl rfl
      · exact Or.inr (Or.inl rfl)
    · exact Or.inr (Or.inr h)

theorem le_max?_of_mem {l : List ℚ} {x m : ℚ} (hx : x ∈ l)
    (hm : l.max? = some m) : x ≤ m := by
  cases l with
  | nil => cases hx
  | cons a as =>
    rw [List.max?_cons', Option.some_inj] at hm
    subst hm
    rcases List.mem_cons.mp hx with h | h
    · subst h
      exact le_foldl_max as x
    · exact le_foldl_max_of_mem h a

theorem max?_mem {l : List ℚ} {m : ℚ} (hm : l.max? = some m) : m ∈ l := by
  cases l with
  | nil => simp at hm
  | cons a as =>
    rw [List.max?_cons', Option.some_inj] at hm
    subst hm
    rcases foldl_max_mem as a with h | h
    · rw [h]
      exact List.mem_cons_self _ _
    · exact List.mem_cons_of_mem _ h

-- ### Helper lemmas about the pipeline

theorem normalizeScores_length (raws : List (Option ℚ)) :
    (normalizeScores raws).length = raws.length := by
  unfold normalizeScores
  cases seriesMax raws with
  | none => simp
  | some m =>
    by_cases h : 0 < m <;> simp [h]

theorem enrich_length (log1p : ℚ → ℚ) (rows : List RawRow) :
    (enrich log1p rows).length = rows.length := by
  unfold enrich
  simp [List.length_zip, normalizeScores_length]

theorem enrich_getElem? (log1p : ℚ → ℚ) (rows : List RawRow) (i : ℕ)
    (h : i < rows.length) :
    ∃ r s, rows[i]? = some r ∧
      (normalizeScores (rows.map (rawScore log1p)))[i]? = some s ∧
      (enrich log1p rows)[i]? = some (enrichRow r s) := by
  have hslen : (normalizeScores (rows.map (rawScore log1p))).length = rows.length := by
    simp [normalizeScores_length]
  have hs : i < (normalizeScores (rows.map (rawScore log1p))).length := by omega
  have hz : i < (rows.zip (normalizeScores (rows.map (rawScore log1p)))).length := by
    simp [List.length_zip]
    omega
  refine ⟨rows[i], (normalizeScores (rows.map (rawScore log1p)))[i], ?_, ?_, ?_⟩
  · exact List.getElem?_eq_getElem h
  · exact List.getElem?_eq_getElem hs
  · have he : i < (enrich log1p rows).length := by
      rw [enrich_length]
      exact h
    rw [List.getElem?_eq_getElem he]
    unfold enrich
    simp only [List.getElem_map, List.getElem_zip]

theorem normalizeScores_eq_of_pos {raws : List (Option ℚ)} {m : ℚ}
    (hm : seriesMax raws = some m) (hpos : 0 < m) :
    normalizeScores raws = raws.map (Option.map (fun r => r / m * 100)) := by
  unfold normalizeScores
  simp only [hm, if_pos hpos]

theorem normalizeScores_eq_of_nonpos {raws : List (Option ℚ)} {m : ℚ}
    (hm : seriesMax raws = some m) (hpos : ¬0 < m) :
    normalizeScores raws = raws.map (fun _ => some 0) := by
  unfold normalizeScores
  simp only [hm, if_neg hpos]

theorem normalizeScores_eq_of_none {raws : List (Option ℚ)}
    (hm : seriesMax raws = none) :
    normalizeScores raws = raws.map (fun _ => some 0) := by
  unfold normalizeScores
  simp only [hm]

theorem normalizeScores_getElem?_of_pos {raws : List (Option ℚ)} {m : ℚ}
    (hm : seriesMax raws = some m) (hpos : 0 < m) {i : ℕ} {x : Option ℚ}
    (hx : raws[i]? = some x) :
    (normalizeScores raws)[i]? = some (x.map (fun r => r / m * 100)) := by
  rw [normalizeScores_eq_of_pos hm hpos, List.getElem?_map, hx]
  rfl

theorem normalizeScores_getElem?_other {raws : List (Option ℚ)}
    (h : ∀ m, seriesMax raws = some m → ¬0 < m) {i : ℕ}
    (hi : i < raws.length) :
    (normalizeScores raws)[i]? = some (some 0) := by
  cases hsm : seriesMax raws with
  | none =>
    rw [normalizeScores_eq_of_none hsm, List.getElem?_map,
      List.getElem?_eq_getElem hi]
    rfl
  | some m =>
    rw [normalizeScores_eq_of_nonpos hsm (h m hsm), List.getElem?_map,
      List.getElem?_eq_getElem hi]
    rfl

theorem seriesMax_isSome_of_mem {raws : List (Option ℚ)} {v : ℚ}
    (h : some v ∈ raws) : ∃ m, seriesMax raws = some m := by
  have hv : v ∈ raws.filterMap id := List.mem_filterMap.mpr ⟨some v, h, rfl⟩
  unfold seriesMax
  cases hm : (raws.filterMap id).max? with
  | none =>
    rw [List.max?_eq_none_iff] at hm
    rw [hm] at hv
    cases hv
  | some m => exact ⟨m, rfl⟩

theorem le_seriesMax_of_mem {raws : List (Option ℚ)} {v m : ℚ}
    (h : some v ∈ raws) (hm : seriesMax raws = some m) : v ≤ m :=
  le_max?_of_mem (List.mem_filterMap.mpr ⟨some v, h, rfl⟩) hm

theorem seriesMax_mem {raws : List (Option ℚ)} {m : ℚ}
    (hm : seriesMax raws = some m) : some m ∈ raws := by
  have hmem : m ∈ raws.filterMap id := max?_mem hm
  rcases List.mem_filterMap.mp hmem with ⟨a, ha, hid⟩
  have : a = some m := hid
  rw [this] at ha
  exact ha

theorem enrich_mem {log1p : ℚ → ℚ} {rows : List RawRow} {er : EnrichedRow}
    (h : er ∈ enrich log1p rows) :
    ∃ r s, r ∈ rows ∧ s ∈ normalizeScores (rows.map (rawScore log1p)) ∧
      er = enrichRow r s := by
  unfold enrich at h
  rcases List.mem_map.mp h with ⟨p, hp, rfl⟩
  exact ⟨p.1, p.2, (List.of_mem_zip hp).1, (List.of_mem_zip hp).2, rfl⟩

theorem normalizeScores_mem_bounds {raws : List (Option ℚ)}
    (hnn : ∀ x ∈ raws, ∃ v, x = some v ∧ 0 ≤ v) :
    ∀ s ∈ normalizeScores raws, ∃ v, s = some v ∧ 0 ≤ v ∧ v ≤ 100 := by
  intro s hs
  cases hsm : seriesMax raws with
  | none =>
    rw [normalizeScores_eq_of_none hsm] at hs
    rcases List.mem_map.mp hs with ⟨x, _, rfl⟩
    exact ⟨0, rfl, le_refl 0, by norm_num⟩
  | some m =>
    by_cases hpos : 0 < m
    · rw [normalizeScores_eq_of_pos hsm hpos] at hs
      rcases List.mem_map.mp hs with ⟨x, hx, rfl⟩
      rcases hnn x hx with ⟨v, rfl, hv⟩
      refine ⟨v / m * 100, rfl, ?_, ?_⟩
      · exact mul_nonneg (div_nonneg hv hpos.le) (by norm_num)
      · have hvm : v ≤ m := le_seriesMax_of_mem hx hsm
        have h1 : v / m ≤ 1 := (div_le_one hpos).mpr hvm
        calc v / m * 100 ≤ 1 * 100 := by
              exact mul_le_mul_of_nonneg_right h1 (by norm_num)
          _ = 100 := by norm_num
    · rw [normalizeScores_eq_of_nonpos hsm hpos] at hs
      rcases List.mem_map.mp hs with ⟨x, _, rfl⟩
      exact ⟨0, rfl, le_refl 0, by norm_num⟩

theorem normalizeScores_all_zero {raws : List (Option ℚ)}
    (h : ∀ x ∈ raws, x = some 0) :
    ∀ s ∈ normalizeScores raws, s = some 0 := by
  intro s hs
  cases hsm : seriesMax raws with
  | none =>
    rw [normalizeScores_eq_of_none hsm] at hs
    rcases List.mem_map.mp hs with ⟨x, _, rfl⟩
    rfl
  | some m =>
    have hm0 : m = 0 := Option.some_inj.mp (h (some m) (seriesMax_mem hsm)).symm |>.symm
    rw [normalizeScores_eq_of_nonpos hsm (by rw [hm0]; exact lt_irrefl 0)] at hs
    rcases List.mem_map.mp hs with ⟨x, _, rfl⟩
    rfl

-- ### Concrete rows used to instantiate theorems and counterexamples

/-- A concrete zero-impact row. -/
def rawA : RawRow := ⟨2020, some 1, "China", "Flood", some 0, some 0⟩

/-- A concrete row with nonzero impact. -/
def rawB : RawRow := ⟨2021, some 2, "Japan", "Earthquake", some 3, some 0⟩

/-- A concrete row with an out-of-range month. -/
def rawM13 : RawRow := ⟨2022, some 13, "Peru", "Flood", some 1, some 2⟩

/-- A concrete row with a missing casualties cell. -/
def rawMissing : RawRow := ⟨2021, none, "India", "Storm", none, some 0⟩

/-- C3: the month repair of app.py line 47 maps a null or zero month to
1 and passes every other integer month through unchanged (no clamping,
no rejection of out-of-range months such as 13). -/
theorem month_repair_passthrough :
    (∀ m : Option Int, m = none ∨ m = some 0 → monthClean m = 1) ∧
    (∀ v : Int, v ≠ 0 → monthClean (some v) = v) := by
  constructor
  · intro m hm
    rcases hm with rfl | rfl <;> rfl
  · intro v hv
    simp [monthClean, monthFillna, monthReplaceZero, hv]

theorem month_repair_passthrough_witness :
    monthClean none = 1 ∧ monthClean (some 0) = 1 ∧ monthClean (some 13) = 13 :=
  ⟨month_repair_passthrough.1 none (Or.inl rfl),
   month_repair_passthrough.1 (some 0) (Or.inr rfl),
   month_repair_passthrough.2 13 (by decide)⟩

/-- C4 counterexample: the claimed invariant `month_clean ∈ [1,12]` fails
on a row whose original month is 13 — app.py line 47 passes it through,
so `month_clean = 13`. -/
theorem month_clean_range_counterexample :
    monthClean (some 13) = 13 ∧
      ¬(1 ≤ monthClean (some 13) ∧ monthClean (some 13) ≤ 12) := by
  constructor
  · rfl
  · decide

/-- C4 amended: `month_clean ∈ [1,12]` holds exactly on the rows the
repair can reach that range from — original month null, zero, or already
in [1,12]; a non-zero out-of-range month passes through unchanged. -/
theorem month_clean_range_amended (m : Option Int)
    (h : m = none ∨ m = some 0 ∨ ∃ v, m = some v ∧ 1 ≤ v ∧ v ≤ 12) :
    1 ≤ monthClean m ∧ monthClean m ≤ 12 := by
  rcases h with rfl | rfl | ⟨v, rfl, h1, h2⟩
  · exact ⟨le_refl 1, by decide⟩
  · exact ⟨le_refl 1, by decide⟩
  · by_cases hv : v = 0
    · subst hv
      exact ⟨le_refl 1, by decide⟩
    · have : monthClean (some v) = v := by
        simp [monthClean, monthFillna, monthReplaceZero, hv]
      rw [this]
      exact ⟨h1, h2⟩

theorem month_clean_range_amended_witness :
    1 ≤ monthClean (some 5) ∧ monthClean (some 5) ≤ 12 :=
  month_clean_range_amended (some 5)
    (Or.inr (Or.inr ⟨5, rfl, by decide, by decide⟩))

/-- C5: for every input row (years are integers in the model, hence
valid), `enrich` emits a row in the same position — no row is dropped
and no date failure aborts the pipeline — whose date is non-null, equal
to the first day of `(year, month_clean)` when that is a constructible
calendar date, and to the first day of `year` when the construction is
coerced to NaT. -/
theorem date_fallback_per_row (log1p : ℚ → ℚ) (rows : List RawRow) :
    (enrich log1p rows).length = rows.length ∧
    ∀ (i : ℕ) (r : RawRow), rows[i]? = some r →
      ∃ er : EnrichedRow, (enrich log1p rows)[i]? = some er ∧ er.date.isSome ∧
        (1 ≤ monthClean r.month ∧ monthClean r.month ≤ 12 →
          er.date = some ⟨r.year, monthClean r.month, 1⟩) ∧
        (toDatetimeCoerce r.year (monthClean r.month) = none →
          er.date = some ⟨r.year, 1, 1⟩) := by
  refine ⟨enrich_length log1p rows, ?_⟩
  intro i r hr
  have hi : i < rows.length := by
    by_contra hlt
    rw [List.getElem?_eq_none (by omega)] at hr
    cases hr
  obtain ⟨r', s, hr', hs, he⟩ := enrich_getElem? log1p rows i hi
  rw [hr] at hr'
  obtain rfl : r = r' := Option.some_inj.mp hr'
  refine ⟨enrichRow r s, he, ?_, ?_, ?_⟩
  · show (dateWithFallback r.year (monthClean r.month)).isSome
    unfold dateWithFallback
    cases toDatetimeCoerce r.year (monthClean r.month) <;> rfl
  · intro h12
    show dateWithFallback r.year (monthClean r.month) = _
    unfold dateWithFallback toDatetimeCoerce
    simp only [if_pos h12]
  · intro hnat
    show dateWithFallback r.year (monthClean r.month) = _
    unfold dateWithFallback
    simp only [hnat]

theorem date_fallback_per_row_witness :
    ∃ er : EnrichedRow, (enrich id [rawM13])[0]? = some er ∧ er.date.isSome ∧
      er.date = some ⟨rawM13.year, 1, 1⟩ := by
  obtain ⟨er, he, hsome, _, hfall⟩ :=
    (date_fallback_per_row id [rawM13]).2 0 rawM13 rfl
  exact ⟨er, he, hsome, hfall (by decide)⟩

/-- C1: on a non-empty dataset whose impact cells are all present (so
that every row has a raw score), the pipeline normalizes against the
dataset maximum `m` of the raw scores: when `m > 0` each row's
severity_score is `100 * raw / m`, and when `m ≤ 0` every row's
severity_score is the scalar 0, so the division is never performed with
a non-positive denominator.  The conclusion also certifies that `m` is
attained and is an upper bound, i.e. it really is the maximum raw value
over all rows. -/
theorem severity_normalization (log1p : ℚ → ℚ) (rows : List RawRow)
    (hne : rows ≠ [])
    (hpres : ∀ r ∈ rows, r.casualties.isSome ∧ r.economic_loss_usd.isSome) :
    ∃ m : ℚ, seriesMax (rows.map (rawScore log1p)) = some m ∧
      (∀ r ∈ rows, ∀ x : ℚ, rawScore log1p r = some x → x ≤ m) ∧
      (∃ r ∈ rows, rawScore log1p r = some m) ∧
      ∀ (i : ℕ) (r : RawRow) (c l : ℚ), rows[i]? = some r →
        r.casualties = some c → r.economic_loss_usd = some l →
        ∃ er : EnrichedRow, (enrich log1p rows)[i]? = some er ∧
          er.severity_score =
            some (if 0 < m then 100 * (log1p c + log1p l) / m else 0) := by
  obtain ⟨r0, rest, rfl⟩ := List.exists_cons_of_ne_nil hne
  obtain ⟨hc0, hl0⟩ := hpres r0 (List.mem_cons_self r0 rest)
  obtain ⟨c0, hc0⟩ := Option.isSome_iff_exists.mp hc0
  obtain ⟨l0, hl0⟩ := Option.isSome_iff_exists.mp hl0
  have hr0 : rawScore log1p r0 = some (log1p c0 + log1p l0) := by
    simp [rawScore, hc0, hl0]
  have hmem : some (log1p c0 + log1p l0) ∈ (r0 :: rest).map (rawScore log1p) := by
    rw [← hr0]
    exact List.mem_map_of_mem _ (List.mem_cons_self r0 rest)
  obtain ⟨m, hm⟩ := seriesMax_isSome_of_mem hmem
  refine ⟨m, hm, ?_, ?_, ?_⟩
  · intro r hr x hx
    have : some x ∈ (r0 :: rest).map (rawScore log1p) := by
      rw [← hx]
      exact List.mem_map_of_mem _ hr
    exact le_seriesMax_of_mem this hm
  · have := seriesMax_mem hm
    rcases List.mem_map.mp this with ⟨r, hr, hrs⟩
    exact ⟨r, hr, hrs⟩
  · intro i r c l hri hc hl
    have hi : i < (r0 :: rest).length := by
      by_contra hlt
      rw [List.getElem?_eq_none (by omega)] at hri
      cases hri
    obtain ⟨r', s, hr', hs, he⟩ := enrich_getElem? log1p (r0 :: rest) i hi
    rw [hri] at hr'
    obtain rfl : r = r' := Option.some_inj.mp hr'
    have hraw : ((r0 :: rest).map (rawScore log1p))[i]? =
        some (some (log1p c + log1p l)) := by
      rw [List.getElem?_map, hri]
      simp [rawScore, hc, hl]
    refine ⟨enrichRow r s, he, ?_⟩
    show s = _
    by_cases hpos : 0 < m
    · have := normalizeScores_getElem?_of_pos hm hpos hraw
      rw [hs] at this
      obtain rfl := Option.some_inj.mp this
      rw [if_pos hpos]
      show some ((log1p c + log1p l) / m * 100) = _
      rw [div_mul_eq_mul_div, mul_comm]
    · have hother : ∀ m', seriesMax ((r0 :: rest).map (rawScore log1p)) = some m' →
          ¬0 < m' := by
        intro m' hm'
        rw [hm] at hm'
        obtain rfl := Option.some_inj.mp hm'
        exact hpos
      have hlen : i < ((r0 :: rest).map (rawScore log1p)).length := by
        rw [List.length_map]
        exact hi
      have := normalizeScores_getElem?_other hother hlen
      rw [hs] at this
      obtain rfl := Option.some_inj.mp this
      rw [if_neg hpos]

theorem severity_normalization_witness :
    ∃ m : ℚ, seriesMax ([rawA, rawB].map (rawScore id)) = some m ∧
      ∃ er : EnrichedRow, (enrich id [rawA, rawB])[1]? = some er ∧
        er.severity_score =
          some (if 0 < m then 100 * (id (3 : ℚ) + id (0 : ℚ)) / m else 0) := by
  obtain ⟨m, hm, _, _, hmain⟩ :=
    severity_normalization id [rawA, rawB] (by decide) (by decide)
  obtain ⟨er, he, hs⟩ := hmain 1 rawB 3 0 rfl rfl rfl
  exact ⟨m, hm, er, he, hs⟩

/-- C2 counterexample: the code does NOT treat a missing casualties cell
as 0.  `np.log1p` propagates the NaN through the sum and the scaling, so
the row's severity_score is NaN (`none` in the model) — not a value in
[0,100].  The outcome is independent of the `log1p` model (the NaN never
reaches it); it is instantiated here at `id`. -/
theorem severity_missing_counterexample :
    rawMissing.casualties = none ∧
      (enrich id [rawMissing, rawB]).map (fun er => er.severity_score) =
        [none, some 100] := by
  refine ⟨rfl, ?_⟩
  have hraws : [rawMissing, rawB].map (rawScore id) = [none, some 3] := by
    simp [rawScore, rawMissing, rawB]
  have hmax : seriesMax ([rawMissing, rawB].map (rawScore id)) = some 3 := by
    rw [hraws]
    simp [seriesMax]
  have hnorm : normalizeScores ([rawMissing, rawB].map (rawScore id)) =
      [none, some 100] := by
    rw [normalizeScores_eq_of_pos hmax (by norm_num), hraws]
    norm_num
  unfold enrich
  rw [hnorm]
  rfl

/-- C2 amended: on rows whose casualties and economic loss are present
and non-negative, every severity_score is a defined value in [0,100]
(using only that `log1p` is monotone with `log1p 0 = 0`, as the real
`np.log1p` is); and when every row's casualties and economic loss equal
0, every severity_score equals 0.  Rows with a missing cell instead get
a NaN score, as the counterexample shows. -/
theorem severity_bounds_amended (log1p : ℚ → ℚ) (rows : List RawRow)
    (h0 : log1p 0 = 0) (hmono : Monotone log1p)
    (hpres : ∀ r ∈ rows, r.casualties.isSome ∧ r.economic_loss_usd.isSome ∧
      0 ≤ r.casualties.getD 0 ∧ 0 ≤ r.economic_loss_usd.getD 0) :
    (∀ er ∈ enrich log1p rows,
      ∃ s : ℚ, er.severity_score = some s ∧ 0 ≤ s ∧ s ≤ 100) ∧
    ((∀ r ∈ rows, r.casualties = some 0 ∧ r.economic_loss_usd = some 0) →
      ∀ er ∈ enrich log1p rows, er.severity_score = some 0) := by
  constructor
  · intro er her
    obtain ⟨r, s, hr, hs, rfl⟩ := enrich_mem her
    have hnn : ∀ x ∈ rows.map (rawScore log1p), ∃ v : ℚ, x = some v ∧ 0 ≤ v := by
      intro x hx
      rcases List.mem_map.mp hx with ⟨r', hr', rfl⟩
      obtain ⟨hcs, hls, hcn, hln⟩ := hpres r' hr'
      obtain ⟨c, hc⟩ := Option.isSome_iff_exists.mp hcs
      obtain ⟨l, hl⟩ := Option.isSome_iff_exists.mp hls
      rw [hc] at hcn
      rw [hl] at hln
      simp only [Option.getD_some] at hcn hln
      refine ⟨log1p c + log1p l, by simp [rawScore, hc, hl], ?_⟩
      have h1 : log1p 0 ≤ log1p c := hmono hcn
      have h2 : log1p 0 ≤ log1p l := hmono hln
      rw [h0] at h1 h2
      linarith
    obtain ⟨v, rfl, hv0, hv100⟩ := normalizeScores_mem_bounds hnn s hs
    exact ⟨v, rfl, hv0, hv100⟩
  · intro hz er her
    obtain ⟨r, s, hr, hs, rfl⟩ := enrich_mem her
    have hall : ∀ x ∈ rows.map (rawScore log1p), x = some 0 := by
      intro x hx
      rcases List.mem_map.mp hx with ⟨r', hr', rfl⟩
      obtain ⟨hc, hl⟩ := hz r' hr'
      simp [rawScore, hc, hl, h0]
    exact normalizeScores_all_zero hall s hs

theorem severity_bounds_amended_witness :
    (∀ er ∈ enrich id [rawB],
      ∃ s : ℚ, er.severity_score = some s ∧ 0 ≤ s ∧ s ≤ 100) ∧
    ((∀ r ∈ [rawB], r.casualties = some 0 ∧ r.economic_loss_usd = some 0) →
      ∀ er ∈ enrich id [rawB], er.severity_score = some 0) :=
  severity_bounds_amended id [rawB] rfl monotone_id (by decide)

-- ### Helper lemmas about the filter engine

theorem conjunctiveKeep_split (spec : FilterSpec) (r : EnrichedRow) :
    conjunctiveKeep spec r = (baseMask spec r &&
      ((spec.disaster_types.isEmpty || spec.disaster_types.contains r.disaster_type) &&
        (decide (spec.country = "All World") || r.country == spec.country))) := by
  unfold conjunctiveKeep baseMask
  simp only [Bool.and_assoc]

theorem filteredDf_eq_filter (spec : FilterSpec) (df : List EnrichedRow) :
    filteredDf spec df = df.filter (conjunctiveKeep spec) := by
  simp only [filteredDf]
  by_cases hc : spec.country = "All World"
  · rw [if_pos hc]
    cases hty : spec.disaster_types.isEmpty
    · rw [if_neg Bool.false_ne_true, List.filter_filter]
      refine (List.filter_congr fun r _ => ?_).symm
      rw [conjunctiveKeep_split]
      simp [hty, hc, Bool.and_comm, Bool.and_left_comm, Bool.and_assoc]
    · rw [if_pos rfl]
      refine (List.filter_congr fun r _ => ?_).symm
      rw [conjunctiveKeep_split]
      simp [hty, hc, Bool.and_comm, Bool.and_left_comm, Bool.and_assoc]
  · rw [if_neg hc]
    cases hty : spec.disaster_types.isEmpty
    · rw [if_neg Bool.false_ne_true, List.filter_filter, List.filter_filter]
      refine (List.filter_congr fun r _ => ?_).symm
      rw [conjunctiveKeep_split]
      simp [hty, hc, Bool.and_comm, Bool.and_left_comm, Bool.and_assoc]
    · rw [if_pos rfl, List.filter_filter]
      refine (List.filter_congr fun r _ => ?_).symm
      rw [conjunctiveKeep_split]
      simp [hty, hc, Bool.and_comm, Bool.and_left_comm, Bool.and_assoc]

/-- C6: the staged filtering of app.py lines 107-117 keeps exactly the
rows satisfying the conjunction of all the spec's conditions (inclusive
year range, inclusive severity floor on a defined score, type membership
with the empty multiselect meaning no type filter, country equality
unless the sentinel "All World" is selected), and the result is an
ordered subsequence of the source dataset, possibly empty. -/
theorem filter_engine_conjunctive (spec : FilterSpec) (df : List EnrichedRow) :
    filteredDf spec df = df.filter (conjunctiveKeep spec) ∧
      (filteredDf spec df).Sublist df := by
  refine ⟨filteredDf_eq_filter spec df, ?_⟩
  rw [filteredDf_eq_filter spec df]
  exact List.filter_sublist df

/-- C7: an empty disaster-type multiselect applies no type filter at
all — app.py line 113 skips the `isin` step — so the result coincides
with selecting every type present in the dataset, rather than the empty
result an "exclude everything" reading would give. -/
theorem empty_types_no_filter (lo hi : Int) (fl : ℚ) (c : String)
    (df : List EnrichedRow) :
    filteredDf ⟨lo, hi, [], c, fl⟩ df =
      filteredDf ⟨lo, hi, typesPresent df, c, fl⟩ df := by
  rw [filteredDf_eq_filter, filteredDf_eq_filter]
  refine List.filter_congr fun r hr => ?_
  rw [conjunctiveKeep_split, conjunctiveKeep_split]
  have hmem : r.disaster_type ∈ typesPresent df :=
    List.mem_dedup.mpr (List.mem_map_of_mem (fun x => x.disaster_type) hr)
  simp [baseMask, hmem]

/-- C8: the Filter Engine is idempotent — re-filtering an
already-filtered subset by the same spec is a no-op.  (Purity and
determinism hold by construction in the embedding: `filteredDf` is a
function of its arguments and mutates nothing.) -/
theorem filter_idempotent (spec : FilterSpec) (df : List EnrichedRow) :
    filteredDf spec (filteredDf spec df) = filteredDf spec df := by
  rw [filteredDf_eq_filter, filteredDf_eq_filter, List.filter_filter]
  exact List.filter_congr fun r _ => Bool.and_self _

/-- A concrete enriched row (month March) for exercising the radar and
metric consumers. -/
def sampleEnriched : EnrichedRow :=
  ⟨2021, some 3, "Japan", "Earthquake", some 3, some 0, 3, some ⟨2021, 3, 1⟩, some 100⟩

/-- A concrete enriched row whose raw month is missing (its month_clean
was repaired to 1): pandas drops it from a `groupby('month')`. -/
def sampleEnrichedNoMonth : EnrichedRow :=
  ⟨2021, none, "India", "Storm", none, some 0, 1, some ⟨2021, 1, 1⟩, none⟩

/-- C9 counterexample: `plot_seasonal_radar` does not return a
fixed-shape 12-month zero-filled distribution.  On an empty subset it
takes the early `return None` (no chart), not 12 zero-count entries; a
one-row subset yields one group row plus the loop-closing duplicate — 2
entries, not 12; and a non-empty subset whose months are all missing
does not return at all — line 152 raises IndexError. -/
theorem seasonal_radar_counterexample :
    seasonalRadarData [] = RadarResult.noChart ∧
      seasonalRadarData [sampleEnriched] =
        RadarResult.chart [((3 : Int), 1), ((3 : Int), 1)] ∧
      seasonalRadarData [sampleEnrichedNoMonth] = RadarResult.indexError := by
  refine ⟨rfl, ?_, ?_⟩ <;> decide

theorem countP_month_eq_count (data : List EnrichedRow) (m : Int) :
    data.countP (fun r => r.month == some m) =
      (data.filterMap (fun r => r.month)).count m := by
  induction data with
  | nil => rfl
  | cons r rest ih =>
    cases hm : r.month with
    | none => simp [List.countP_cons, List.filterMap_cons, hm, ih]
    | some v =>
      by_cases hv : v = m
      · subst hv
        simp [List.countP_cons, List.filterMap_cons, hm, List.count_cons, ih]
      · simp [List.countP_cons, List.filterMap_cons, hm, List.count_cons, hv, ih]

theorem dropLast_append_take_one {α : Type} (l : List α) (hl : l ≠ []) :
    (l ++ l.take 1).dropLast = l := by
  cases l with
  | nil => exact absurd rfl hl
  | cons a as => exact List.dropLast_concat

/-- C9 amended: `plot_seasonal_radar` takes the early no-chart return
exactly on the empty subset; on a non-empty subset with no non-null
month it raises IndexError (crashes) rather than returning anything;
and any chart it does return is keyed by the raw `month` column (not
`month_clean`) and is not zero-filled to 12 months: its entries are one
per distinct non-null month present — each month paired with the exact
count of the rows carrying it, and nothing else — with the keys before
the closing entry sorted ascending and the last entry a duplicate of
the first (closing the radar loop), so its length is the number of
distinct months present plus one. -/
theorem seasonal_radar_amended (data : List EnrichedRow) :
    (seasonalRadarData data = RadarResult.noChart ↔ data = []) ∧
    (seasonalRadarData data = RadarResult.indexError ↔
      data ≠ [] ∧ data.filterMap (fun r => r.month) = []) ∧
    ∀ l : List (Int × Nat), seasonalRadarData data = RadarResult.chart l →
      l.length = (data.filterMap (fun r => r.month)).dedup.length + 1 ∧
      l.getLast? = l.head? ∧
      List.Sorted (· ≤ ·) ((l.map Prod.fst).dropLast) ∧
      (∀ m : Int, (∃ r ∈ data, r.month = some m) →
        (m, data.countP (fun r => r.month == some m)) ∈ l) ∧
      ∀ p : Int × Nat, p ∈ l →
        (∃ r ∈ data, r.month = some p.1) ∧
        p.2 = data.countP (fun r => r.month == some p.1) := by
  have hperm := List.perm_insertionSort (· ≤ ·)
    (data.filterMap (fun r => r.month)).dedup
  by_cases hd : data.isEmpty
  · have hnil : data = [] := List.isEmpty_iff.mp hd
    subst hnil
    refine ⟨by simp [seasonalRadarData], by simp [seasonalRadarData], ?_⟩
    intro l hl
    simp [seasonalRadarData] at hl
  · simp only [seasonalRadarData, hd, Bool.false_eq_true, if_false, ite_false]
    have hdne : data ≠ [] := by
      intro hnil
      rw [hnil] at hd
      exact hd rfl
    refine ⟨?_, ?_, ?_⟩
    · constructor
      · intro h
        by_cases hm : ((List.insertionSort (· ≤ ·)
            (data.filterMap (fun r => r.month)).dedup).map
            (fun m => (m, (data.filterMap (fun r => r.month)).count m))).isEmpty
        · rw [if_pos hm] at h
          exact RadarResult.noConfusion h
        · rw [if_neg hm] at h
          exact RadarResult.noConfusion h
      · intro h
        exact absurd h hdne
    · constructor
      · intro h
        refine ⟨hdne, ?_⟩
        by_cases hm : ((List.insertionSort (· ≤ ·)
            (data.filterMap (fun r => r.month)).dedup).map
            (fun m => (m, (data.filterMap (fun r => r.month)).count m))).isEmpty
        · rw [List.isEmpty_iff, List.map_eq_nil_iff] at hm
          have hded : (data.filterMap (fun r => r.month)).dedup = [] := by
            have hlen := hperm.length_eq
            rw [hm] at hlen
            exact List.length_eq_zero.mp hlen.symm
          exact (List.dedup_eq_nil _).mp hded
        · rw [if_neg hm] at h
          exact RadarResult.noConfusion h
      · rintro ⟨-, hcells⟩
        have hded : (data.filterMap (fun r => r.month)).dedup = [] := by
          rw [hcells]
          rfl
        have hsort : List.insertionSort (· ≤ ·)
            (data.filterMap (fun r => r.month)).dedup = [] := by
          rw [hded]
          rfl
        rw [hsort]
        rfl
    · intro l hl
      by_cases hm : ((List.insertionSort (· ≤ ·)
          (data.filterMap (fun r => r.month)).dedup).map
          (fun m => (m, (data.filterMap (fun r => r.month)).count m))).isEmpty
      · rw [if_pos hm] at hl
        exact RadarResult.noConfusion hl
      · rw [if_neg hm] at hl
        obtain rfl := (RadarResult.chart.inj hl).symm
        rw [List.isEmpty_iff] at hm
        obtain ⟨b, bs, hq⟩ := List.exists_cons_of_ne_nil hm
        have hklen : (List.insertionSort (· ≤ ·)
            (data.filterMap (fun r => r.month)).dedup).length =
            (data.filterMap (fun r => r.month)).dedup.length := hperm.length_eq
        have hmlen : ((List.insertionSort (· ≤ ·)
            (data.filterMap (fun r => r.month)).dedup).map
            (fun m => (m, (data.filterMap (fun r => r.month)).count m))).length =
            (List.insertionSort (· ≤ ·)
              (data.filterMap (fun r => r.month)).dedup).length := by
          rw [List.length_map]
        have hfst : ((List.insertionSort (· ≤ ·)
            (data.filterMap (fun r => r.month)).dedup).map
            (fun m => (m, (data.filterMap (fun r => r.month)).count m))).map
            Prod.fst =
            List.insertionSort (· ≤ ·) (data.filterMap (fun r => r.month)).dedup := by
          rw [List.map_map]
          exact List.map_id _
        have hfne : ((List.insertionSort (· ≤ ·)
            (data.filterMap (fun r => r.month)).dedup).map
            (fun m => (m, (data.filterMap (fun r => r.month)).count m))).map
            Prod.fst ≠ [] := by
          rw [Ne, List.map_eq_nil_iff]
          rw [hq]
          intro hcontra
          cases hcontra
        refine ⟨?_, ?_, ?_, ?_, ?_⟩
        · rw [hq]
          show ((b :: bs) ++ [b]).length = _
          have h1 : (b :: bs).length =
              (data.filterMap (fun r => r.month)).dedup.length := by
            rw [← hq, hmlen, hklen]
          simp only [List.length_append, List.length_cons, List.length_nil] at h1 ⊢
          omega
        · rw [hq]
          show ((b :: bs) ++ [b]).getLast? = ((b :: bs) ++ [b]).head?
          rw [List.getLast?_concat]
          rfl
        · have hrw : ((((List.insertionSort (· ≤ ·)
              (data.filterMap (fun r => r.month)).dedup).map
              (fun m => (m, (data.filterMap (fun r => r.month)).count m))) ++
              ((List.insertionSort (· ≤ ·)
                (data.filterMap (fun r => r.month)).dedup).map
                (fun m => (m, (data.filterMap (fun r => r.month)).count m))).take 1).map
              Prod.fst).dropLast =
              List.insertionSort (· ≤ ·) (data.filterMap (fun r => r.month)).dedup := by
            rw [List.map_append, List.map_take, dropLast_append_take_one _ hfne, hfst]
          rw [hrw]
          exact List.sorted_insertionSort _ _
        · intro m hex
          obtain ⟨r, hr, hrm⟩ := hex
          have hcellsm : m ∈ data.filterMap (fun r => r.month) :=
            List.mem_filterMap.mpr ⟨r, hr, hrm⟩
          have hdedm : m ∈ (data.filterMap (fun r => r.month)).dedup :=
            List.mem_dedup.mpr hcellsm
          have hsortedm : m ∈ List.insertionSort (· ≤ ·)
              (data.filterMap (fun r => r.month)).dedup :=
            hperm.mem_iff.mpr hdedm
          have hmonthly : (m, (data.filterMap (fun r => r.month)).count m) ∈
              (List.insertionSort (· ≤ ·)
                (data.filterMap (fun r => r.month)).dedup).map
                (fun m => (m, (data.filterMap (fun r => r.month)).count m)) :=
            List.mem_map_of_mem _ hsortedm
          rw [countP_month_eq_count]
          exact List.mem_append_left _ hmonthly
        · intro p hp
          have hpm : p ∈ (List.insertionSort (· ≤ ·)
              (data.filterMap (fun r => r.month)).dedup).map
              (fun m => (m, (data.filterMap (fun r => r.month)).count m)) := by
            rcases List.mem_append.mp hp with h | h
            · exact h
            · exact List.take_subset 1 _ h
          rcases List.mem_map.mp hpm with ⟨m, hmk, rfl⟩
          have hmded : m ∈ (data.filterMap (fun r => r.month)).dedup :=
            hperm.mem_iff.mp hmk
          have hmcells : m ∈ data.filterMap (fun r => r.month) :=
            List.mem_dedup.mp hmded
          rcases List.mem_filterMap.mp hmcells with ⟨r, hr, hrm⟩
          exact ⟨⟨r, hr, hrm⟩, (countP_month_eq_count data m).symm⟩

theorem seasonal_radar_amended_witness :
    ((3 : Int), [sampleEnriched].countP (fun r => r.month == some 3)) ∈
      [((3 : Int), 1), ((3 : Int), 1)] ∧
    seasonalRadarData [] = RadarResult.noChart ∧
    seasonalRadarData [sampleEnrichedNoMonth] = RadarResult.indexError :=
  ⟨((seasonal_radar_amended [sampleEnriched]).2.2
        [((3 : Int), 1), ((3 : Int), 1)] (by decide)).2.2.2.1 3
      ⟨sampleEnriched, by simp, rfl⟩,
   (seasonal_radar_amended []).1.mpr rfl,
   (seasonal_radar_amended [sampleEnrichedNoMonth]).2.1.mpr ⟨by decide, rfl⟩⟩

/-- A filter spec (year range 1900-1900) matching none of the sample
rows. -/
def emptySpec : FilterSpec := ⟨1900, 1900, [], "All World", 0⟩

/-- C10 counterexample: on an empty filtered subset the mean severity is
NaN and app.py line 217 formats that NaN straight into the metric card —
the display shows the text `"nan/100"`, not a defined placeholder, so
the NaN does propagate to a display (though nothing crashes). -/
theorem avg_severity_nan_counterexample :
    filteredDf emptySpec [sampleEnriched] = [] ∧
      avgSeverity (filteredDf emptySpec [sampleEnriched]) = none ∧
      renderAvgSeverity (avgSeverity (filteredDf emptySpec [sampleEnriched])) =
        MetricDisplay.nanText := by
  have h : filteredDf emptySpec [sampleEnriched] = [] := by decide
  refine ⟨h, ?_, ?_⟩
  · rw [h]
    rfl
  · rw [h]
    rfl

/-- C10 amended: the mean severity of an empty filtered subset is NaN
(`none`), and the metric card renders exactly that NaN as the `"nan"`
text — it shows the placeholder-free NaN display precisely when the mean
is NaN, and a formatted number otherwise; the computation itself is
total (computing the aggregate over zero rows is not an error). -/
theorem avg_severity_nan_amended (spec : FilterSpec) (df : List EnrichedRow) :
    (filteredDf spec df = [] →
      avgSeverity (filteredDf spec df) = none ∧
      renderAvgSeverity (avgSeverity (filteredDf spec df)) =
        MetricDisplay.nanText) ∧
    ∀ x : Option ℚ, renderAvgSeverity x = MetricDisplay.nanText ↔ x = none := by
  constructor
  · intro h
    rw [h]
    exact ⟨rfl, rfl⟩
  · intro x
    cases x <;> simp [renderAvgSeverity]

theorem avg_severity_nan_amended_witness :
    avgSeverity (filteredDf emptySpec [sampleEnriched]) = none ∧
      renderAvgSeverity (avgSeverity (filteredDf emptySpec [sampleEnriched])) =
        MetricDisplay.nanText :=
  (avg_severity_nan_amended emptySpec [sampleEnriched]).1 (by decide)
